import Mathlib

/-!
Verification of the extraction core of the Pinterest search scraper.

The Python source (src/extractors/pinterest_parser.py and
src/extractors/utils_time.py) is embedded shallowly:

* JSON values produced by json.loads are modelled by the inductive
  type JVal (numbers restricted to integers, which is all the claims need).
* Python dicts are association lists with the insertion order the code
  iterates in; dict.get returns JVal.null for a missing key, matching
  the Python None value.
* Python truthiness (the behaviour of the or-operator used throughout
  _normalize_pin and the fallback parser) is modelled by truthy/pyOr.
* External library calls (dateutil parsing, datetime.fromtimestamp,
  json.loads) are abstracted as function parameters; the surrounding
  control flow is translated literally.
* The HTML documents handed to BeautifulSoup are modelled by the parts
  the code actually reads: the list of inline script texts and the list
  of div elements with their attributes and descendant images.
-/

namespace Pinterest

/-- JSON-like values as produced by the Python json module. -/
inductive JVal where
  | null : JVal
  | bool : Bool → JVal
  | num : Int → JVal
  | str : String → JVal
  | arr : List JVal → JVal
  | obj : List (String × JVal) → JVal

/-- Python truthiness of a JSON value: None, False, 0, empty string,
empty list and empty dict are falsy, everything else truthy. -/
def truthy : JVal → Bool
  | .null => false
  | .bool b => b
  | .num n => n != 0
  | .str s => s != ""
  | .arr xs => !xs.isEmpty
  | .obj fs => !fs.isEmpty

/-- The short-circuiting Python or-operator on values: a or b. -/
def pyOr (a b : JVal) : JVal := if truthy a then a else b

/-- Python dict.get k: the value stored under k, or None when absent. -/
def pyGet (fs : List (String × JVal)) (k : String) : JVal :=
  match fs.lookup k with
  | some v => v
  | none => .null

/-- Python k in dict: key membership test. -/
def hasKey (fs : List (String × JVal)) (k : String) : Bool :=
  fs.any (fun p => p.1 == k)

/-- A single-quote character, used by Python repr of strings. -/
def squote : String := String.mk [Char.ofNat 39]

/-- An opening-brace character. -/
def lbrace : Char := Char.ofNat 123

/-- A closing-brace character. -/
def rbrace : Char := Char.ofNat 125

mutual

/-- Python repr of a JSON value (str uses repr for non-string values). -/
def pyRepr : JVal → String
  | .null => "None"
  | .bool true => "True"
  | .bool false => "False"
  | .num n => toString n
  | .str s => squote ++ s ++ squote
  | .arr xs => "[" ++ pyReprList xs ++ "]"
  | .obj fs => String.mk [lbrace] ++ pyReprObj fs ++ String.mk [rbrace]

/-- Comma-separated reprs of the elements of a list. -/
def pyReprList : List JVal → String
  | [] => ""
  | v :: vs => pyRepr v ++ (if vs.isEmpty then "" else ", ") ++ pyReprList vs

/-- Comma-separated reprs of the entries of a dict. -/
def pyReprObj : List (String × JVal) → String
  | [] => ""
  | (k, v) :: fs =>
      squote ++ k ++ squote ++ ": " ++ pyRepr v ++
        (if fs.isEmpty then "" else ", ") ++ pyReprObj fs

end

/-- Python str() of a JSON value, as used by str(pin_obj.get("id")). -/
def pyStr : JVal → String
  | .str s => s
  | v => pyRepr v

mutual

/-- PinterestSearchScraper._iter_dicts: depth-first generator of every
dict node of a JSON tree, the node itself before the dicts nested in
its values, values in insertion order. -/
def iter_dicts : JVal → List (List (String × JVal))
  | .null => []
  | .bool _ => []
  | .num _ => []
  | .str _ => []
  | .arr xs => iterDictsArr xs
  | .obj fs => fs :: iterDictsObj fs

/-- _iter_dicts continued: all dict nodes inside the elements of a list. -/
def iterDictsArr : List JVal → List (List (String × JVal))
  | [] => []
  | v :: vs => iter_dicts v ++ iterDictsArr vs

/-- _iter_dicts continued: all dict nodes inside the values of a dict. -/
def iterDictsObj : List (String × JVal) → List (List (String × JVal))
  | [] => []
  | (_, v) :: fs => iter_dicts v ++ iterDictsObj fs

end

/-- The pin heuristic of _find_pin_objects: a dict with an id key and
at least one of images, grid_title, title. -/
def isPinLike (fs : List (String × JVal)) : Bool :=
  hasKey fs "id" && (hasKey fs "images" || hasKey fs "grid_title" || hasKey fs "title")

/-- PinterestSearchScraper._find_pin_objects: every dict node of every
blob that satisfies the pin heuristic, in traversal order. -/
def find_pin_objects (blobs : List JVal) : List (List (String × JVal)) :=
  blobs.flatMap (fun b => (iter_dicts b).filter isPinLike)

/-- Python str.strip on a character list: whitespace removed from both ends. -/
def pyStripL (cs : List Char) : List Char :=
  ((cs.dropWhile Char.isWhitespace).reverse.dropWhile Char.isWhitespace).reverse

/-- Does the second list occur at the start of the first? -/
def startsWithL : List Char → List Char → Bool
  | _, [] => true
  | [], _ :: _ => false
  | a :: as, b :: bs => a == b && startsWithL as bs

/-- Does the second list occur at the end of the first? -/
def endsWithL (s p : List Char) : Bool :=
  startsWithL s.reverse p.reverse

/-- Python substring containment: does p occur contiguously inside s? -/
def hasSub (s p : List Char) : Bool :=
  if startsWithL s p then true
  else
    match s with
    | [] => false
    | _ :: rest => hasSub rest p

/-- The slice text[text.index(lbrace) : text.rindex(rbrace) + 1] used by
_extract_json_blobs_from_html, none when either index call would raise. -/
def braceSlice (cs : List Char) : Option (List Char) :=
  if (lbrace ∈ cs) ∧ (rbrace ∈ cs) then
    some ((((cs.dropWhile (fun c => c ≠ lbrace)).reverse.dropWhile
      (fun c => c ≠ rbrace)).reverse))
  else none

/-- First marker substring looked for in inline scripts. -/
def marker1 : List Char := "__PWS_DATA__".toList

/-- Second marker substring looked for in inline scripts. -/
def marker2 : List Char := "initialReduxState".toList

/-- The second branch of the script loop of
_extract_json_blobs_from_html: a script whose stripped text starts and
ends with a brace is fed whole to json.loads (abstracted as the
parameter parseJson), a failure contributing nothing. -/
def pure_json_branch (parseJson : List Char → Option JVal) (text : List Char) : List JVal :=
  if startsWithL (pyStripL text) [lbrace] && endsWithL (pyStripL text) [rbrace] then
    match parseJson text with
    | some b => [b]
    | none => []
  else []

/-- The body of the script loop of _extract_json_blobs_from_html for
one script text: the marker branch (which on any failure does continue,
skipping the pure-JSON branch for that script), then the pure-JSON
branch. -/
def process_script (parseJson : List Char → Option JVal) (text : List Char) : List JVal :=
  if hasSub text marker1 || hasSub text marker2 then
    match braceSlice text with
    | none => []
    | some s =>
        match parseJson s with
        | none => []
        | some b => b :: pure_json_branch parseJson text
  else pure_json_branch parseJson text

/-- PinterestSearchScraper._extract_json_blobs_from_html, over the list
of inline script texts of the page. -/
def extract_json_blobs_from_html (parseJson : List Char → Option JVal)
    (scripts : List String) : List JVal :=
  scripts.flatMap (fun s => process_script parseJson s.toList)

/-- utils_time._safe_to_datetime.  The external datetime/dateutil calls
are abstracted: parseNum models datetime.fromtimestamp followed by
strftime (Python bools are ints, so they take this branch), parseStr
models dateutil.parser.parse, timezone normalization and strftime; both
return the formatted date or none on failure. -/
def safe_to_datetime (parseNum : Int → Option String)
    (parseStr : String → Option String) : JVal → Option String
  | .null => none
  | .bool b => parseNum (if b then 1 else 0)
  | .num n => parseNum n
  | .str s =>
      let text := String.mk (pyStripL s.toList)
      if text = "" then none else parseStr text
  | .arr _ => none
  | .obj _ => none

/-- utils_time.parse_pinterest_timestamp: formatted date when the raw
value converts, with the raw input always kept in the initial field. -/
def parse_pinterest_timestamp (parseNum : Int → Option String)
    (parseStr : String → Option String) (raw : JVal) : JVal :=
  match safe_to_datetime parseNum parseStr raw with
  | none => .obj [( "formatted", JVal.null ), ( "initial", raw )]
  | some f => .obj [( "formatted", JVal.str f ), ( "initial", raw )]

/-- The value-scanning loop of _extract_primary_image_url: the url of
the first entry whose value is a dict with a url key, else None. -/
def firstUrl : List (String × JVal) → JVal
  | [] => .null
  | (_, .obj sd) :: rest => if hasKey sd "url" then pyGet sd "url" else firstUrl rest
  | _ :: rest => firstUrl rest

/-- PinterestSearchScraper._extract_primary_image_url: when images is a
dict whose orig entry is a dict, the url of that entry (None when it has
none); otherwise the first url found among the values. -/
def extract_primary_image_url (pin_obj : List (String × JVal)) : JVal :=
  match pyGet pin_obj "images" with
  | .obj images =>
      match pyGet images "orig" with
      | .obj origFields => pyGet origFields "url"
      | _ => firstUrl images
  | _ => .null

/-- PinterestSearchScraper._normalize_pin, translated field by field;
the or-chains keep the falsy fall-through semantics of Python. -/
def normalize_pin (parseNum : Int → Option String)
    (parseStr : String → Option String) (pin_obj : List (String × JVal)) : JVal :=
  let pin_id := pyStr (pyGet pin_obj "id")
  let title := pyOr (pyGet pin_obj "grid_title")
    (pyOr (pyGet pin_obj "title") (pyOr (pyGet pin_obj "description") (.str "")))
  let pinner0 := pyOr (pyGet pin_obj "pinner") (pyOr (pyGet pin_obj "owner") (.obj []))
  let pinner : List (String × JVal) :=
    match pinner0 with
    | .obj fs => fs
    | _ => []
  let pinner_id := pyOr (pyGet pinner "id") (pyGet pinner "user_id")
  let username := pyOr (pyGet pinner "username") (pyGet pinner "urlname")
  let full_name := pyOr (pyGet pinner "full_name") (pyGet pinner "fullName")
  let avatar_url :=
    if hasKey pinner "image_small_url" then pyGet pinner "image_small_url"
    else if hasKey pinner "image_medium_url" then pyGet pinner "image_medium_url"
    else if hasKey pinner "image_xlarge_url" then pyGet pinner "image_xlarge_url"
    else JVal.null
  let followers := pyOr (pyGet pinner "follower_count") (pyGet pinner "followers")
  let created_at := pyOr (pyGet pin_obj "created_at")
    (pyOr (pyGet pin_obj "created_at_timestamp") (pyGet pin_obj "createdAt"))
  let date_info := parse_pinterest_timestamp parseNum parseStr created_at
  let image_url := pyOr (extract_primary_image_url pin_obj) (.str "")
  .obj
    [( "id", JVal.str pin_id ),
     ( "title", title ),
     ( "pinner", JVal.obj
        [( "id", pinner_id ), ( "username", username ), ( "fullName", full_name ),
         ( "avatarURL", avatar_url ), ( "followers", followers )] ),
     ( "date", date_info ),
     ( "type", pyOr (pyGet pin_obj "type") (.str "pin") ),
     ( "imageURL", image_url )]

/-- An img element, by the attributes the fallback parser reads. -/
structure Img where
  src : Option String
  data_src : Option String
  alt : Option String

/-- A div element, by the attributes and descendant images the fallback
parser reads (imgs in document order; find picks the first). -/
structure Div where
  data_test_id : Option String
  data_pin_id : Option String
  imgs : List Img

/-- BeautifulSoup attribute access attr or default for string-valued
attributes: the attribute value when present and non-empty, the default
otherwise (an empty attribute value is falsy). -/
def pyAttrOr (a : Option String) (d : String) : String :=
  match a with
  | some s => if s = "" then d else s
  | none => d

/-- The leftmost match of the regex r"/(\d+)/" in a character list: the
digit run of the first slash-delimited all-digit stretch, none when the
pattern does not occur. -/
def firstSlashDigitRun : List Char → Option (List Char)
  | [] => none
  | c :: rest =>
      if c = '/' then
        let run := rest.takeWhile Char.isDigit
        if !run.isEmpty && (rest.drop run.length).head? = some '/' then some run
        else firstSlashDigitRun rest
      else firstSlashDigitRun rest

/-- The last n characters of a string (the whole string when shorter),
modelling the Python slice s[-n:]. -/
def takeRightN (n : Nat) (s : String) : String :=
  String.mk (s.toList.drop (s.toList.length - n))

/-- ASCII lowercasing of one character, as str.lower acts on the
attribute values involved here. -/
def lowerChar (c : Char) : Char :=
  if c.isUpper then Char.ofNat (c.toNat + 32) else c

/-- Python str.lower over a character list. -/
def pyLowerL (cs : List Char) : List Char := cs.map lowerChar

/-- The pin-id derivation of _fallback_parse_from_html: the data-pin-id
attribute when present and non-empty, else the first slash-delimited
digit run of the image URL, else the last 32 characters of the URL. -/
def derive_pin_id (data_pin_id : Option String) (image_url : String) : String :=
  let pid := pyAttrOr data_pin_id ""
  if pid = "" then
    match firstSlashDigitRun image_url.toList with
    | some run => String.mk run
    | none => takeRightN 32 image_url
  else pid

/-- The body of the div loop of _fallback_parse_from_html for one div:
the minimal pin record, or none when the div is skipped. -/
def fallback_pin (parseNum : Int → Option String)
    (parseStr : String → Option String) (d : Div) : Option JVal :=
  let data_test_id := d.data_test_id.getD ""
  if hasSub (pyLowerL data_test_id.toList) "pin".toList then
    match d.imgs.head? with
    | none => none
    | some img =>
        let image_url := pyAttrOr img.src (pyAttrOr img.data_src "")
        let alt := pyAttrOr img.alt ""
        let pin_id := derive_pin_id d.data_pin_id image_url
        some (.obj
          [( "id", JVal.str pin_id ),
           ( "title", JVal.str alt ),
           ( "pinner", JVal.obj
              [( "id", JVal.null ), ( "username", JVal.null ), ( "fullName", JVal.null ),
               ( "avatarURL", JVal.null ), ( "followers", JVal.null )] ),
           ( "date", parse_pinterest_timestamp parseNum parseStr .null ),
           ( "type", JVal.str "pin" ),
           ( "imageURL", JVal.str image_url )])
  else none

/-- PinterestSearchScraper._fallback_parse_from_html over the divs of
the page. -/
def fallback_parse_from_html (parseNum : Int → Option String)
    (parseStr : String → Option String) (divs : List Div) : List JVal :=
  divs.filterMap (fallback_pin parseNum parseStr)

/-- Outcome of one session.get attempt: a raised transport exception or
a response with a status code. -/
inductive AttemptResult where
  | err : AttemptResult
  | status : Int → AttemptResult

/-- The retry loop of _request_with_retries: taken attempts so far and
remaining fuel; a status of at least 500 raises and is retried like a
transport error; any other status returns immediately.  Returns the
final result together with the number of attempts made. -/
def request_loop (attempts : Nat → AttemptResult) : Nat → Nat → Option Int × Nat
  | taken, 0 => (none, taken)
  | taken, fuel + 1 =>
      match attempts taken with
      | .status c =>
          if 500 ≤ c then request_loop attempts (taken + 1) fuel
          else (some c, taken + 1)
      | .err => request_loop attempts (taken + 1) fuel

/-- PinterestSearchScraper._request_with_retries with max_retries
attempts, indexed from zero by the attempts oracle. -/
def request_with_retries (max_retries : Nat) (attempts : Nat → AttemptResult) :
    Option Int × Nat :=
  request_loop attempts 0 max_retries

/-- The wait computed before retry number attempt:
backoff_factor * 2 ** (attempt - 1). -/
def backoffWait (backoff_factor : ℚ) (attempt : Nat) : ℚ :=
  backoff_factor * 2 ^ (attempt - 1)

/-- sleep_for = wait + jitter, with jitter drawn uniformly from
[0, wait / 2]. -/
def sleep_for (backoff_factor : ℚ) (attempt : Nat) (jitter : ℚ) : ℚ :=
  backoffWait backoff_factor attempt + jitter

/-- Expected value of sleep_for over the uniform jitter: wait + wait/4. -/
def expectedSleep (backoff_factor : ℚ) (attempt : Nat) : ℚ :=
  sleep_for backoff_factor attempt (backoffWait backoff_factor attempt / 4)

/-- Python list slicing lst[:limit] for a possibly negative int limit. -/
def pyTake (limit : Int) (l : List JVal) : List JVal :=
  if 0 ≤ limit then l.take limit.toNat
  else l.take (l.length - (-limit).toNat)

/-- The normalization loop of search: append the normalized pin, then
break once the accumulated count reaches the limit.  count is the
number of records already accumulated. -/
def normalize_loop (parseNum : Int → Option String)
    (parseStr : String → Option String) (limit : Int) :
    Nat → List (List (String × JVal)) → List JVal
  | _, [] => []
  | count, p :: rest =>
      let r := normalize_pin parseNum parseStr p
      if limit ≤ (count + 1 : Int) then [r]
      else r :: normalize_loop parseNum parseStr limit (count + 1) rest

/-- An HTTP response, by the parts search reads: the status code and
the parsed page (inline script texts and div elements). -/
structure Response where
  status_code : Int
  scripts : List String
  divs : List Div

/-- PinterestSearchScraper.search after the fetch: no response or a
non-200 status yields the empty list; otherwise structured extraction,
with the fallback parser (sliced to the limit) when no candidate pin
was found, and the normalization loop otherwise. -/
def search (parseNum : Int → Option String) (parseStr : String → Option String)
    (parseJson : List Char → Option JVal) (resp : Option Response) (limit : Int) :
    List JVal :=
  match resp with
  | none => []
  | some r =>
      if r.status_code = 200 then
        let blobs := extract_json_blobs_from_html parseJson r.scripts
        let pins_raw := if blobs.isEmpty then [] else find_pin_objects blobs
        if pins_raw.isEmpty then
          pyTake limit (fallback_parse_from_html parseNum parseStr r.divs)
        else normalize_loop parseNum parseStr limit 0 pins_raw
      else []

/-- Field access on a record value: dict lookup, None off a non-dict. -/
def getJ (v : JVal) (k : String) : JVal :=
  match v with
  | .obj fs => pyGet fs k
  | _ => .null

/-- The top-level key list of a record value. -/
def topKeysOf : JVal → List String
  | .obj fs => fs.map Prod.fst
  | _ => []

/-- Is the value a JSON string? -/
def isStrJ : JVal → Bool
  | .str _ => true
  | _ => false

/-- Is the value JSON null? -/
def isNullJ : JVal → Bool
  | .null => true
  | _ => false

/-- Is the value a JSON object? -/
def isObjJ : JVal → Bool
  | .obj _ => true
  | _ => false

/-- The canonical record shape of the spec's data model: exactly the six
top-level fields, a string id, the five creator fields under pinner,
and the two date fields. -/
def record_shape (r : JVal) : Bool :=
  (topKeysOf r == [ "id", "title", "pinner", "date", "type", "imageURL" ]) &&
  isStrJ (getJ r "id") &&
  (topKeysOf (getJ r "pinner") ==
    [ "id", "username", "fullName", "avatarURL", "followers" ]) &&
  (topKeysOf (getJ r "date") == [ "formatted", "initial" ])

/-- A fetch attempt that the retry loop treats as retryable: a raised
transport error or a server-side status of at least 500. -/
def attemptFails (a : AttemptResult) : Prop :=
  a = .err ∨ ∃ c, a = .status c ∧ 500 ≤ c

/-- The acceptance condition of the script loop: the text contains one
of the two markers, or its stripped form starts and ends with braces. -/
def script_accepted (text : List Char) : Bool :=
  hasSub text marker1 || hasSub text marker2 ||
    (startsWithL (pyStripL text) [lbrace] && endsWithL (pyStripL text) [rbrace])

/-- A numeric-timestamp converter that always fails, for concrete runs. -/
def pn0 : Int → Option String := fun _ => none

/-- A string-timestamp converter that always fails, for concrete runs. -/
def ps0 : String → Option String := fun _ => none

/-- A JSON parser accepting nothing, for concrete runs. -/
def parse_none : List Char → Option JVal := fun _ => none

/-- A script text that both contains a marker and is a braced object. -/
def scriptBoth : String := "\x7b\"x\": \"__PWS_DATA__\"\x7d"

/-- The parse of scriptBoth. -/
def blobBoth : JVal := .obj [( "x", JVal.str "__PWS_DATA__" )]

/-- A JSON parser that parses exactly scriptBoth. -/
def parseBoth : List Char → Option JVal :=
  fun cs => if cs = scriptBoth.toList then some blobBoth else none

/-- A candidate pin whose grid_title is the number 7. -/
def pinNum : List (String × JVal) := [( "id", JVal.str "1" ), ( "grid_title", JVal.num 7 )]

/-- A braced script embedding pinNum. -/
def scriptNum : String := "\x7b\"id\": \"1\", \"grid_title\": 7\x7d"

/-- A JSON parser that parses exactly scriptNum, to pinNum. -/
def parseNumTitle : List Char → Option JVal :=
  fun cs => if cs = scriptNum.toList then some (.obj pinNum) else none

/-- A 200 response whose only script is scriptNum. -/
def respNumTitle : Response := ⟨200, [scriptNum], []⟩

/-- A pin-like candidate nested inside another pin-like candidate. -/
def pinInner : List (String × JVal) := [( "id", JVal.str "2" ), ( "title", JVal.str "b" )]

/-- The outer candidate containing pinInner. -/
def pinOuter : List (String × JVal) :=
  [( "id", JVal.str "1" ), ( "title", JVal.str "a" ), ( "k", JVal.obj pinInner )]

/-- A braced script embedding pinOuter. -/
def scriptNested : String := "\x7bnested\x7d"

/-- A JSON parser that parses exactly scriptNested, to pinOuter. -/
def parseNested : List Char → Option JVal :=
  fun cs => if cs = scriptNested.toList then some (.obj pinOuter) else none

/-- A 200 response whose only script is scriptNested. -/
def respNested : Response := ⟨200, [scriptNested], []⟩

/-- The candidate list the heuristic finds in respNested. -/
def csNested : List (List (String × JVal)) := [pinOuter, pinInner]

/-- A candidate whose images dict has an orig entry without a url and a
later entry with one. -/
def pinImg : List (String × JVal) :=
  [( "id", JVal.str "1" ), ( "title", JVal.str "t" ),
   ( "images", JVal.obj
      [( "orig", JVal.obj [] ), ( "small", JVal.obj [( "url", JVal.str "u" )] )] )]

/-- A candidate whose images dict has an orig entry with a url. -/
def pinOrigUrl : List (String × JVal) :=
  [( "id", JVal.str "1" ),
   ( "images", JVal.obj [( "orig", JVal.obj [( "url", JVal.str "u" )] )] )]

/-- A candidate whose images dict has no orig entry. -/
def pinNoOrig : List (String × JVal) :=
  [( "id", JVal.str "1" ),
   ( "images", JVal.obj [( "small", JVal.obj [( "url", JVal.str "u" )] )] )]

/-- A pin div whose data-pin-id attribute is present but empty, with an
image URL containing a slash-delimited digit run. -/
def divEmptyPid : Div := ⟨some "pin-box", some "", [⟨some "http://x/123/a.jpg", none, some "A"⟩]⟩

/-- A pin div with a non-empty data-pin-id attribute. -/
def divW : Div := ⟨some "pin", some "77", [⟨some "http://a/9/x.png", none, some "T"⟩]⟩

/-- A 200 response with no scripts and one pin div. -/
def respFallback : Response := ⟨200, [], [divW]⟩

/-- A 200 response with no scripts and two pin divs. -/
def respTwoDivs : Response := ⟨200, [], [divW, divW]⟩

/-- The record the fallback path produces from divW. -/
def recW : JVal := .obj
  [( "id", JVal.str "77" ), ( "title", JVal.str "T" ),
   ( "pinner", JVal.obj
      [( "id", JVal.null ), ( "username", JVal.null ), ( "fullName", JVal.null ),
       ( "avatarURL", JVal.null ), ( "followers", JVal.null )] ),
   ( "date", JVal.obj [( "formatted", JVal.null ), ( "initial", JVal.null )] ),
   ( "type", JVal.str "pin" ), ( "imageURL", JVal.str "http://a/9/x.png" )]

/-- A candidate whose grid_title is present but empty, with a non-empty
title behind it. -/
def pinEmptyGrid : List (String × JVal) :=
  [( "id", JVal.str "1" ), ( "grid_title", JVal.str "" ), ( "title", JVal.str "X" )]

/-- A candidate whose only title-ish field is an empty grid_title. -/
def pinOnlyGrid : List (String × JVal) := [( "grid_title", JVal.str "" )]

/-- An attempts oracle that serves a 500 on every attempt. -/
def attAllFail : Nat → AttemptResult := fun _ => .status 500

/-- An attempts oracle failing once with 503, then serving a 200. -/
def attSecondOk : Nat → AttemptResult :=
  fun i => if i = 1 then .status 200 else .status 503

/-- d is one of the dict nodes of the JSON tree v: the tree itself when
it is a dict, or a node of one of the values/elements below it. -/
inductive IsObjNode : List (String × JVal) → JVal → Prop where
  | here (fs : List (String × JVal)) : IsObjNode fs (.obj fs)
  | inObjVal {fs : List (String × JVal)} {k : String} {v : JVal}
      {d : List (String × JVal)} :
      (k, v) ∈ fs → IsObjNode d v → IsObjNode d (.obj fs)
  | inArrVal {xs : List JVal} {v : JVal} {d : List (String × JVal)} :
      v ∈ xs → IsObjNode d v → IsObjNode d (.arr xs)

mutual

/-- The depth-first generator enumerates exactly the dict nodes. -/
theorem mem_iter_dicts (d : List (String × JVal)) (v : JVal) :
    d ∈ iter_dicts v ↔ IsObjNode d v := by
  cases v with
  | null =>
    refine ⟨fun h => by simp [iter_dicts] at h, fun h => by cases h⟩
  | bool b =>
    refine ⟨fun h => by simp [iter_dicts] at h, fun h => by cases h⟩
  | num n =>
    refine ⟨fun h => by simp [iter_dicts] at h, fun h => by cases h⟩
  | str s =>
    refine ⟨fun h => by simp [iter_dicts] at h, fun h => by cases h⟩
  | arr xs =>
    show d ∈ iterDictsArr xs ↔ _
    rw [mem_iterDictsArr d xs]
    constructor
    · rintro ⟨v, hv, h⟩
      exact .inArrVal hv h
    · intro h
      cases h with
      | inArrVal hv h => exact ⟨_, hv, h⟩
  | obj fs =>
    show d ∈ fs :: iterDictsObj fs ↔ _
    rw [List.mem_cons, mem_iterDictsObj d fs]
    constructor
    · rintro (rfl | ⟨k, v, hkv, h⟩)
      · exact .here d
      · exact .inObjVal hkv h
    · intro h
      cases h with
      | here => exact Or.inl rfl
      | inObjVal hkv h => exact Or.inr ⟨_, _, hkv, h⟩

/-- Membership in the traversal of the elements of a list. -/
theorem mem_iterDictsArr (d : List (String × JVal)) (xs : List JVal) :
    d ∈ iterDictsArr xs ↔ ∃ v, v ∈ xs ∧ IsObjNode d v := by
  cases xs with
  | nil => simp [iterDictsArr]
  | cons v vs =>
    show d ∈ iter_dicts v ++ iterDictsArr vs ↔ _
    rw [List.mem_append, mem_iter_dicts d v, mem_iterDictsArr d vs]
    constructor
    · rintro (h | ⟨w, hw, h⟩)
      · exact ⟨v, List.mem_cons_self v vs, h⟩
      · exact ⟨w, List.mem_cons_of_mem v hw, h⟩
    · rintro ⟨w, hw, h⟩
      rcases List.mem_cons.mp hw with rfl | hw
      · exact Or.inl h
      · exact Or.inr ⟨w, hw, h⟩

/-- Membership in the traversal of the values of a dict. -/
theorem mem_iterDictsObj (d : List (String × JVal)) (fs : List (String × JVal)) :
    d ∈ iterDictsObj fs ↔ ∃ k v, (k, v) ∈ fs ∧ IsObjNode d v := by
  cases fs with
  | nil => simp [iterDictsObj]
  | cons p rest =>
    obtain ⟨k, v⟩ := p
    show d ∈ iter_dicts v ++ iterDictsObj rest ↔ _
    rw [List.mem_append, mem_iter_dicts d v, mem_iterDictsObj d rest]
    constructor
    · rintro (h | ⟨k', v', hkv, h⟩)
      · exact ⟨k, v, List.mem_cons_self _ rest, h⟩
      · exact ⟨k', v', List.mem_cons_of_mem _ hkv, h⟩
    · rintro ⟨k', v', hkv, h⟩
      rcases List.mem_cons.mp hkv with heq | hkv
      · cases heq
        exact Or.inl h
      · exact Or.inr ⟨k', v', hkv, h⟩

end

/-- C4: _find_pin_objects returns exactly the dict nodes of the blobs
that have an id field and one of images, grid_title, title: it is the
order-preserving filter of the depth-first enumeration of all dict
nodes, and that enumeration contains precisely the dict nodes of the
blobs, so a matching node nested inside another accepted node is still
independently returned and a tree without a matching node contributes
no match. -/
theorem find_pin_objects_characterization (blobs : List JVal) :
    find_pin_objects blobs = (blobs.flatMap iter_dicts).filter isPinLike ∧
    ∀ d, d ∈ blobs.flatMap iter_dicts ↔ ∃ b, b ∈ blobs ∧ IsObjNode d b := by
  constructor
  · induction blobs with
    | nil => rfl
    | cons b bs ih =>
      show (iter_dicts b).filter isPinLike ++ find_pin_objects bs = _
      rw [List.flatMap_cons, List.filter_append, ih]
  · intro d
    rw [List.mem_flatMap]
    exact exists_congr fun b => and_congr_right fun _ => mem_iter_dicts d b

/-- Below its limit the normalization loop normalizes exactly the next
(limit - count) candidates, in order. -/
theorem normalize_loop_take (pn : Int → Option String) (ps : String → Option String)
    (L : Int) (cs : List (List (String × JVal))) :
    ∀ (c : Nat), (c : Int) < L → L ≤ (c : Int) + cs.length →
      normalize_loop pn ps L c cs = (cs.take (L - c).toNat).map (normalize_pin pn ps) := by
  induction cs with
  | nil => intro c _ _; simp [normalize_loop]
  | cons p rest ih =>
    intro c h1 h2
    simp only [normalize_loop]
    by_cases hc : L ≤ (c : Int) + 1
    · rw [if_pos hc]
      have ht : (L - c).toNat = 1 := by omega
      rw [ht]
      rfl
    · rw [if_neg hc]
      have h2' : L ≤ ((c + 1 : Nat) : Int) + rest.length := by
        simp only [List.length_cons] at h2
        push_cast at h2 ⊢
        omega
      rw [ih (c + 1) (by push_cast; omega) h2']
      have ht : (L - c).toNat = (L - (c + 1 : Nat)).toNat + 1 := by push_cast; omega
      rw [ht]
      rfl

/-- Every record produced by the normalization loop is the
normalization of one of the candidates. -/
theorem mem_normalize_loop {pn : Int → Option String} {ps : String → Option String}
    {limit : Int} :
    ∀ {count : Nat} {cs : List (List (String × JVal))} {r : JVal},
      r ∈ normalize_loop pn ps limit count cs →
      ∃ p, p ∈ cs ∧ r = normalize_pin pn ps p := by
  intro count cs
  induction cs generalizing count with
  | nil => intro r h; simp [normalize_loop] at h
  | cons p rest ih =>
    intro r h
    simp only [normalize_loop] at h
    split at h
    · rw [List.mem_singleton] at h
      exact ⟨p, List.mem_cons_self p rest, h⟩
    · rcases List.mem_cons.mp h with rfl | h'
      · exact ⟨p, List.mem_cons_self p rest, rfl⟩
      · obtain ⟨q, hq, hrq⟩ := ih h'
        exact ⟨q, List.mem_cons_of_mem p hq, hrq⟩

/-- C2: with a positive limit L and more than L candidates, the
normalization path returns exactly the normalizations of the first L
candidates in original order; the loop breaks at the limit, so the
candidates beyond it do not influence the result, and search on a 200
response whose extraction yields those candidates returns that same
truncated list. -/
theorem normalization_truncates_at_limit (pn : Int → Option String)
    (ps : String → Option String) (pj : List Char → Option JVal)
    (L : Int) (cs : List (List (String × JVal)))
    (hL : 1 ≤ L) (hN : L < (cs.length : Int)) :
    normalize_loop pn ps L 0 cs = (cs.take L.toNat).map (normalize_pin pn ps) ∧
    (∀ tail, normalize_loop pn ps L 0 (cs.take L.toNat ++ tail) =
      normalize_loop pn ps L 0 cs) ∧
    (∀ r : Response, r.status_code = 200 →
      (extract_json_blobs_from_html pj r.scripts).isEmpty = false →
      find_pin_objects (extract_json_blobs_from_html pj r.scripts) = cs →
      search pn ps pj (some r) L = (cs.take L.toNat).map (normalize_pin pn ps)) := by
  have hlen : (cs.take L.toNat).length = L.toNat := by
    rw [List.length_take]
    omega
  have base : normalize_loop pn ps L 0 cs = (cs.take L.toNat).map (normalize_pin pn ps) := by
    have h := normalize_loop_take pn ps L cs 0 (by omega) (by push_cast; omega)
    simpa using h
  refine ⟨base, ?_, ?_⟩
  · intro tail
    have h := normalize_loop_take pn ps L (cs.take L.toNat ++ tail) 0 (by omega)
      (by rw [List.length_append, hlen]; push_cast; omega)
    rw [base, h]
    congr 1
    simp only [Nat.cast_zero, Int.sub_zero]
    rw [List.take_append_of_le_length (le_of_eq hlen.symm), List.take_take, min_self]
  · intro r hstatus hblobs hfind
    have hcs : cs.isEmpty = false := by
      cases cs with
      | nil => simp at hN; omega
      | cons a l => rfl
    simp only [search]
    rw [if_pos hstatus, hblobs, if_neg Bool.false_ne_true, hfind, hcs,
      if_neg Bool.false_ne_true, base]

/-- C2 witness: limit 1 with two candidates (one nested in the other)
normalizes only the first. -/
theorem normalization_truncates_at_limit_witness :
    normalize_loop pn0 ps0 1 0 csNested =
      (csNested.take (1 : Int).toNat).map (normalize_pin pn0 ps0) ∧
    search pn0 ps0 parseNested (some respNested) 1 =
      (csNested.take (1 : Int).toNat).map (normalize_pin pn0 ps0) := by
  have h := normalization_truncates_at_limit pn0 ps0 parseNested 1 csNested
    (by norm_num) (by norm_num [csNested])
  exact ⟨h.1, h.2.2 respNested rfl rfl rfl⟩

/-- C10 (amended): with a non-positive limit the normalization loop
still emits the first record before checking the limit, so one record
comes out whenever a candidate exists; the fallback slice returns zero
records at limit 0 (where its length is min of found count and limit),
but a negative limit -k keeps all but the last k fallback records
instead of zero. -/
theorem limit_zero_paths (pn : Int → Option String) (ps : String → Option String)
    (limit : Int) (p : List (String × JVal)) (rest : List (List (String × JVal)))
    (divs : List Div) (h : limit ≤ 0) :
    normalize_loop pn ps limit 0 (p :: rest) = [normalize_pin pn ps p] ∧
    pyTake 0 (fallback_parse_from_html pn ps divs) = [] ∧
    (pyTake 0 (fallback_parse_from_html pn ps divs)).length =
      min (fallback_parse_from_html pn ps divs).length 0 ∧
    (∀ k : Nat, pyTake (-(k + 1 : Int)) (fallback_parse_from_html pn ps divs) =
      (fallback_parse_from_html pn ps divs).take
        ((fallback_parse_from_html pn ps divs).length - (k + 1))) := by
  refine ⟨?_, ?_, ?_, ?_⟩
  · simp only [normalize_loop]
    rw [if_pos (by push_cast; omega)]
  · simp [pyTake]
  · simp [pyTake]
  · intro k
    have hneg : ¬(0 : Int) ≤ -(k + 1 : Int) := by omega
    simp only [pyTake, if_neg hneg, neg_neg]
    congr 1

/-- C10 witness: a concrete candidate and concrete fallback records at
limits 0 and -1. -/
theorem limit_zero_paths_witness :
    normalize_loop pn0 ps0 0 0 [pinOuter] = [normalize_pin pn0 ps0 pinOuter] ∧
    pyTake 0 (fallback_parse_from_html pn0 ps0 [divW, divW]) = [] ∧
    pyTake (-(1 : Int)) (fallback_parse_from_html pn0 ps0 [divW, divW]) =
      (fallback_parse_from_html pn0 ps0 [divW, divW]).take
        ((fallback_parse_from_html pn0 ps0 [divW, divW]).length - 1) := by
  have h := limit_zero_paths pn0 ps0 0 pinOuter [] [divW, divW] (by norm_num)
  refine ⟨h.1, h.2.1, ?_⟩
  have h4 := h.2.2.2 0
  norm_num at h4 ⊢
  exact h4

/-- C10 counterexample: with limit -1 and two fallback pins the search
returns one record, not zero. -/
theorem limit_negative_fallback_not_empty :
    (search pn0 ps0 parse_none (some respTwoDivs) (-1)).length = 1 := by rfl

/-- Zero-indexed retry loop: when every remaining attempt is a
retryable failure, the loop consumes all its fuel and reports none. -/
theorem request_loop_all_fail (attempts : Nat → AttemptResult) :
    ∀ (fuel start : Nat), (∀ i, i < fuel → attemptFails (attempts (start + i))) →
      request_loop attempts start fuel = (none, start + fuel) := by
  intro fuel
  induction fuel with
  | zero => intro start _; rfl
  | succ n ih =>
    intro start h
    have h0 : attemptFails (attempts start) := by simpa using h 0 (by omega)
    have hrest : ∀ i, i < n → attemptFails (attempts (start + 1 + i)) := by
      intro i hi
      have := h (i + 1) (by omega)
      rwa [show start + (i + 1) = start + 1 + i by omega] at this
    have hrec : request_loop attempts (start + 1) n = (none, start + 1 + n) := ih (start + 1) hrest
    have hres : ((none : Option Int), start + 1 + n) = ((none : Option Int), start + (n + 1)) := by
      rw [Prod.mk.injEq]
      exact ⟨rfl, by omega⟩
    rcases ha : attempts start with _ | c
    · simp only [request_loop, ha]
      rw [hrec, hres]
    · rcases h0 with he | ⟨c', hc', hge⟩
      · rw [ha] at he; cases he
      · rw [ha] at hc'
        cases hc'
        simp only [request_loop, ha]
        rw [if_pos hge, hrec, hres]

/-- Zero-indexed retry loop: the first non-retryable attempt is
returned immediately, after exactly that many attempts. -/
theorem request_loop_first_success (attempts : Nat → AttemptResult) :
    ∀ (i fuel start : Nat) (c : Int), i < fuel →
      (∀ j, j < i → attemptFails (attempts (start + j))) →
      attempts (start + i) = AttemptResult.status c → c < 500 →
      request_loop attempts start fuel = (some c, start + i + 1) := by
  intro i
  induction i with
  | zero =>
    intro fuel start c hf _ ha hc
    obtain ⟨n, rfl⟩ : ∃ n, fuel = n + 1 := ⟨fuel - 1, by omega⟩
    rw [Nat.add_zero] at ha
    simp only [request_loop, ha]
    rw [if_neg (show ¬(500 : Int) ≤ c by omega)]
  | succ i ih =>
    intro fuel start c hf hj ha hc
    obtain ⟨n, rfl⟩ : ∃ n, fuel = n + 1 := ⟨fuel - 1, by omega⟩
    have h0 : attemptFails (attempts start) := by simpa using hj 0 (by omega)
    have hj' : ∀ j, j < i → attemptFails (attempts (start + 1 + j)) := by
      intro j hjlt
      have := hj (j + 1) (by omega)
      rwa [show start + (j + 1) = start + 1 + j by omega] at this
    have ha' : attempts (start + 1 + i) = AttemptResult.status c := by
      rwa [show start + (i + 1) = start + 1 + i by omega] at ha
    have hi' : i < n := by omega
    have hrec : request_loop attempts (start + 1) n = (some c, start + 1 + i + 1) :=
      ih n (start + 1) c hi' hj' ha' hc
    have hres : ((some c : Option Int), start + 1 + i + 1) =
        ((some c : Option Int), start + (i + 1) + 1) := by
      rw [Prod.mk.injEq]
      exact ⟨rfl, by omega⟩
    rcases h0' : attempts start with _ | c0
    · simp only [request_loop, h0']
      rw [hrec, hres]
    · rcases h0 with he | ⟨c', hc', hge⟩
      · rw [h0'] at he; cases he
      · rw [h0'] at hc'
        cases hc'
        simp only [request_loop, h0']
        rw [if_pos hge, hrec, hres]

/-- C3: with maxRetries R, an all-failing run makes exactly R attempts
and ends with none (and search turns a missing response into the empty
list); the first attempt with a status below 500 is returned
immediately; the sleep before a retry is wait plus jitter with
wait = backoff_factor * 2 ^ (attempt - 1), and its expectation
wait + wait / 4 is monotone in the attempt number, strictly so for a
positive backoff factor. -/
theorem retry_exhaustion_and_backoff (R : Nat) (attempts : Nat → AttemptResult)
    (b : ℚ) (pn : Int → Option String) (ps : String → Option String)
    (pj : List Char → Option JVal) (limit : Int) (_hR : 1 ≤ R) :
    ((∀ i, i < R → attemptFails (attempts i)) →
      request_with_retries R attempts = (none, R) ∧ search pn ps pj none limit = []) ∧
    (∀ i c, i < R → (∀ j, j < i → attemptFails (attempts j)) →
      attempts i = AttemptResult.status c → c < 500 →
      request_with_retries R attempts = (some c, i + 1)) ∧
    (0 ≤ b → ∀ i i', i ≤ i' → expectedSleep b i ≤ expectedSleep b i') ∧
    (0 < b → ∀ i i', 1 ≤ i → i < i' → expectedSleep b i < expectedSleep b i') := by
  refine ⟨?_, ?_, ?_, ?_⟩
  · intro h
    refine ⟨?_, rfl⟩
    have := request_loop_all_fail attempts R 0 (by simpa using h)
    simpa [request_with_retries] using this
  · intro i c hi hj ha hc
    have := request_loop_first_success attempts i R 0 c hi (by simpa using hj)
      (by simpa using ha) hc
    simpa [request_with_retries] using this
  · intro hb i i' hii
    have key : b * 2 ^ (i - 1) ≤ b * 2 ^ (i' - 1) :=
      mul_le_mul_of_nonneg_left
        (pow_le_pow_right₀ (by norm_num : (1 : ℚ) ≤ 2) (by omega)) hb
    simp only [expectedSleep, sleep_for, backoffWait]
    linarith
  · intro hb i i' hi hii
    have key : b * 2 ^ (i - 1) < b * 2 ^ (i' - 1) :=
      mul_lt_mul_of_pos_left
        (pow_lt_pow_right₀ (by norm_num : (1 : ℚ) < 2) (by omega)) hb
    simp only [expectedSleep, sleep_for, backoffWait]
    linarith

/-- C3 witness: three forced 500s make exactly three attempts ending in
none; a 200 on the second attempt returns after two attempts; expected
backoff grows between attempts 1, 2 and 3 for backoff factor 1/2. -/
theorem retry_exhaustion_and_backoff_witness :
    request_with_retries 3 attAllFail = (none, 3) ∧
    search pn0 ps0 parse_none none 50 = [] ∧
    request_with_retries 3 attSecondOk = (some 200, 2) ∧
    expectedSleep (1 / 2) 1 ≤ expectedSleep (1 / 2) 2 ∧
    expectedSleep (1 / 2) 2 < expectedSleep (1 / 2) 3 := by
  have h1 := retry_exhaustion_and_backoff 3 attAllFail (1 / 2) pn0 ps0 parse_none 50
    (by norm_num)
  have h2 := retry_exhaustion_and_backoff 3 attSecondOk (1 / 2) pn0 ps0 parse_none 50
    (by norm_num)
  have hfail := h1.1 (fun i _ => Or.inr ⟨500, rfl, by norm_num⟩)
  refine ⟨hfail.1, hfail.2, ?_, ?_, ?_⟩
  · refine h2.2.1 1 200 (by norm_num) ?_ rfl (by norm_num)
    intro j hj
    obtain rfl : j = 0 := by omega
    exact Or.inr ⟨503, rfl, by norm_num⟩
  · exact h1.2.2.1 (by norm_num) 1 2 (by omega)
  · exact h1.2.2.2 (by norm_num) 2 3 (by omega) (by omega)

/-- C5 (amended): the normalized title is the first truthy value among
grid_title, title, description (the Python or falls through every falsy
value, not only null), and the empty string when all are falsy; when an
empty grid_title is the only title-ish field present, the result is the
empty string. -/
theorem title_resolution (pn : Int → Option String) (ps : String → Option String)
    (pin : List (String × JVal)) :
    getJ (normalize_pin pn ps pin) "title" =
      (if truthy (pyGet pin "grid_title") then pyGet pin "grid_title"
       else if truthy (pyGet pin "title") then pyGet pin "title"
       else if truthy (pyGet pin "description") then pyGet pin "description"
       else JVal.str "") ∧
    (pyGet pin "grid_title" = JVal.str "" → pyGet pin "title" = JVal.null →
      pyGet pin "description" = JVal.null →
      getJ (normalize_pin pn ps pin) "title" = JVal.str "") := by
  have hbase : getJ (normalize_pin pn ps pin) "title" =
      pyOr (pyGet pin "grid_title") (pyOr (pyGet pin "title")
        (pyOr (pyGet pin "description") (.str ""))) := rfl
  constructor
  · rw [hbase]
    rfl
  · intro h1 h2 h3
    rw [hbase, h1, h2, h3]
    rfl

/-- C5 witness: a candidate whose only title-ish field is an empty
grid_title normalizes to the empty title. -/
theorem title_resolution_witness :
    getJ (normalize_pin pn0 ps0 pinOnlyGrid) "title" = JVal.str "" :=
  (title_resolution pn0 ps0 pinOnlyGrid).2 rfl rfl rfl

/-- C5 counterexample: grid_title present and non-null (the empty
string) does not win; the code falls through to title. -/
theorem title_empty_grid_falls_through :
    pyGet pinEmptyGrid "grid_title" = JVal.str "" ∧
    getJ (normalize_pin pn0 ps0 pinEmptyGrid) "title" = JVal.str "X" := ⟨rfl, rfl⟩

/-- The pure-JSON branch yields at most one blob. -/
theorem pure_json_branch_length (pj : List Char → Option JVal) (text : List Char) :
    (pure_json_branch pj text).length ≤ 1 := by
  unfold pure_json_branch
  split
  · split <;> simp
  · simp

/-- Everything the pure-JSON branch yields is the parse of the text. -/
theorem mem_pure_json_branch {pj : List Char → Option JVal} {text : List Char}
    {b : JVal} (h : b ∈ pure_json_branch pj text) : pj text = some b := by
  unfold pure_json_branch at h
  split at h
  · split at h
    · rw [List.mem_singleton] at h
      subst h
      assumption
    · simp at h
  · simp at h

/-- C6 (amended): a script accepted by neither condition contributes
nothing; an accepted script contributes at most two parsed blobs (one
per acceptance branch, so a script matching a marker whose text is also
a braced object can contribute two); and only successful parses
contribute, an individual parse failure contributing nothing. -/
theorem blob_extraction_per_script (pj : List Char → Option JVal) (text : List Char) :
    (script_accepted text = false → process_script pj text = []) ∧
    (process_script pj text).length ≤ 2 ∧
    (∀ b, b ∈ process_script pj text → ∃ s, pj s = some b) := by
  refine ⟨?_, ?_, ?_⟩
  · intro hacc
    unfold script_accepted at hacc
    rw [Bool.or_eq_false_iff] at hacc
    obtain ⟨hm, hbr⟩ := hacc
    unfold process_script pure_json_branch
    rw [hm, if_neg Bool.false_ne_true, hbr, if_neg Bool.false_ne_true]
  · unfold process_script
    split
    · split
      · simp
      · split
        · simp
        · have := pure_json_branch_length pj text
          simp only [List.length_cons]
          omega
    · have := pure_json_branch_length pj text
      omega
  · intro b hb
    unfold process_script at hb
    split at hb
    · split at hb
      · simp at hb
      · split at hb
        · simp at hb
        · rcases List.mem_cons.mp hb with rfl | hb'
          · exact ⟨_, by assumption⟩
          · exact ⟨text, mem_pure_json_branch hb'⟩
    · exact ⟨text, mem_pure_json_branch hb⟩

/-- C6 witness: an unaccepted script contributes nothing; the doubly
accepted script stays within the bound of two; its blob is a parse. -/
theorem blob_extraction_per_script_witness :
    process_script parse_none ( "hello".toList) = [] ∧
    (process_script parseBoth scriptBoth.toList).length ≤ 2 ∧
    (∃ s, parseBoth s = some blobBoth) := by
  have h1 := blob_extraction_per_script parse_none ( "hello".toList)
  have h2 := blob_extraction_per_script parseBoth scriptBoth.toList
  refine ⟨h1.1 rfl, h2.2.1, h2.2.2 blobBoth ?_⟩
  show blobBoth ∈ ([blobBoth, blobBoth] : List JVal)
  exact List.mem_cons_self blobBoth [blobBoth]

/-- C6 counterexample: a script that contains a marker and is also a
braced object contributes two blobs, not at most one. -/
theorem script_double_blob :
    process_script parseBoth scriptBoth.toList = [blobBoth, blobBoth] ∧
    (process_script parseBoth scriptBoth.toList).length = 2 := ⟨rfl, rfl⟩

/-- C7 (amended): a raw timestamp that is a list or a mapping converts
to no datetime, so formatted is null, but the initial field holds the
raw value itself, not null. -/
theorem timestamp_unsupported_types (pn : Int → Option String)
    (ps : String → Option String) (xs : List JVal) (fs : List (String × JVal)) :
    parse_pinterest_timestamp pn ps (.arr xs) =
      .obj [( "formatted", JVal.null ), ( "initial", JVal.arr xs )] ∧
    parse_pinterest_timestamp pn ps (.obj fs) =
      .obj [( "formatted", JVal.null ), ( "initial", JVal.obj fs )] := ⟨rfl, rfl⟩

/-- C7 counterexample: for a list input the initial field is that list,
so it is not null as the spec states. -/
theorem timestamp_list_initial_not_null :
    parse_pinterest_timestamp pn0 ps0 (.arr []) =
      .obj [( "formatted", JVal.null ), ( "initial", JVal.arr [] )] ∧
    isNullJ (getJ (parse_pinterest_timestamp pn0 ps0 (.arr [])) "initial") = false :=
  ⟨rfl, rfl⟩

/-- C8 (amended): a missing or non-dict images field yields no image
URL and an empty imageURL downstream; when the orig entry is a dict,
its url value is returned with no fallback to the other entries (null,
hence an empty imageURL, when orig has no url); only when orig is
absent or not a dict does the scan over the values in iteration order
run, taking the url of the first dict entry that has one. -/
theorem primary_image_resolution (pn : Int → Option String)
    (ps : String → Option String) (pin images origFields : List (String × JVal)) :
    (isObjJ (pyGet pin "images") = false →
      extract_primary_image_url pin = JVal.null ∧
      getJ (normalize_pin pn ps pin) "imageURL" = JVal.str "") ∧
    (pyGet pin "images" = JVal.obj images → pyGet images "orig" = JVal.obj origFields →
      extract_primary_image_url pin = pyGet origFields "url") ∧
    (pyGet pin "images" = JVal.obj images → isObjJ (pyGet images "orig") = false →
      extract_primary_image_url pin = firstUrl images) ∧
    (firstUrl [] = JVal.null) ∧
    (∀ k sd rest, firstUrl (( k, JVal.obj sd ) :: rest) =
      (if hasKey sd "url" then pyGet sd "url" else firstUrl rest)) ∧
    (∀ k v rest, isObjJ v = false → firstUrl (( k, v ) :: rest) = firstUrl rest) := by
  refine ⟨?_, ?_, ?_, rfl, fun k sd rest => rfl, ?_⟩
  · intro h
    have h1 : extract_primary_image_url pin = JVal.null := by
      unfold extract_primary_image_url
      cases hv : pyGet pin "images" with
      | obj l => rw [hv] at h; simp [isObjJ] at h
      | null => rfl
      | bool b => rfl
      | num n => rfl
      | str s => rfl
      | arr xs => rfl
    refine ⟨h1, ?_⟩
    have h2 : getJ (normalize_pin pn ps pin) "imageURL" =
        pyOr (extract_primary_image_url pin) (.str "") := rfl
    rw [h2, h1]
    rfl
  · intro h1 h2
    simp only [extract_primary_image_url, h1, h2]
  · intro h1 h2
    simp only [extract_primary_image_url, h1]
    cases hv : pyGet images "orig" with
    | obj l => rw [hv] at h2; simp [isObjJ] at h2
    | null => rfl
    | bool b => rfl
    | num n => rfl
    | str s => rfl
    | arr xs => rfl
  · intro k v rest hv
    cases v with
    | obj l => simp [isObjJ] at hv
    | null => rfl
    | bool b => rfl
    | num n => rfl
    | str s => rfl
    | arr xs => rfl

/-- C8 witness: a candidate with no images field gets the empty
imageURL; with a url-carrying orig that url is used; without an orig
the first url-carrying value wins. -/
theorem primary_image_resolution_witness :
    (extract_primary_image_url pinOuter = JVal.null ∧
      getJ (normalize_pin pn0 ps0 pinOuter) "imageURL" = JVal.str "") ∧
    extract_primary_image_url pinOrigUrl = pyGet [( "url", JVal.str "u" )] "url" ∧
    extract_primary_image_url pinNoOrig =
      firstUrl [( "small", JVal.obj [( "url", JVal.str "u" )] )] := by
  refine ⟨?_, ?_, ?_⟩
  · exact (primary_image_resolution pn0 ps0 pinOuter [] []).1 rfl
  · exact (primary_image_resolution pn0 ps0 pinOrigUrl
      [( "orig", JVal.obj [( "url", JVal.str "u" )] )] [( "url", JVal.str "u" )]).2.1 rfl rfl
  · exact (primary_image_resolution pn0 ps0 pinNoOrig
      [( "small", JVal.obj [( "url", JVal.str "u" )] )] []).2.2.1 rfl rfl

/-- C8 counterexample: with an orig entry that is a dict without a url
and a sibling entry carrying one, the code returns null (empty imageURL
downstream) instead of the sibling url the claim requires. -/
theorem orig_without_url_no_fallback :
    extract_primary_image_url pinImg = JVal.null ∧
    getJ (normalize_pin pn0 ps0 pinImg) "imageURL" = JVal.str "" ∧
    firstUrl [( "orig", JVal.obj [] ), ( "small", JVal.obj [( "url", JVal.str "u" )] )] =
      JVal.str "u" := ⟨rfl, rfl, rfl⟩

/-- C9 (amended): the fallback id is the data-pin-id attribute only
when it is present with a non-empty value; when it is absent or empty,
the first slash-delimited digit run of the image URL is used when the
pattern matches, and the last 32 characters of the URL otherwise. -/
theorem fallback_id_derivation (a : Option String) (s url : String) :
    (s ≠ "" → derive_pin_id (some s) url = s) ∧
    ((a = none ∨ a = some "") →
      (∀ run, firstSlashDigitRun url.toList = some run →
        derive_pin_id a url = String.mk run) ∧
      (firstSlashDigitRun url.toList = none →
        derive_pin_id a url = takeRightN 32 url)) := by
  constructor
  · intro hs
    simp only [derive_pin_id, pyAttrOr, if_neg hs]
  · intro ha
    have hpid : pyAttrOr a "" = "" := by
      rcases ha with rfl | rfl <;> rfl
    constructor
    · intro run hrun
      simp only [derive_pin_id, hpid, hrun, if_pos]
    · intro hnone
      simp only [derive_pin_id, hpid, hnone, if_pos]

/-- C9 witness: a non-empty attribute wins; with no attribute the digit
run is extracted when present and the URL tail is used otherwise. -/
theorem fallback_id_derivation_witness :
    derive_pin_id (some "abc") "http://x/123/a.jpg" = "abc" ∧
    derive_pin_id none "http://x/123/a.jpg" = String.mk ( "123".toList) ∧
    derive_pin_id none "u" = takeRightN 32 "u" := by
  refine ⟨?_, ?_, ?_⟩
  · exact (fallback_id_derivation (some "abc") "abc" "http://x/123/a.jpg").1 (by decide)
  · exact ((fallback_id_derivation none "x" "http://x/123/a.jpg").2 (Or.inl rfl)).1
      ( "123".toList) rfl
  · exact ((fallback_id_derivation none "x" "u").2 (Or.inl rfl)).2 rfl

/-- C9 counterexample: a present-but-empty data-pin-id attribute is
ignored and the id is derived from the image URL instead of being the
value of the attribute (the empty string). -/
theorem empty_pin_id_attribute_ignored :
    divEmptyPid.data_pin_id = some "" ∧
    (fallback_parse_from_html pn0 ps0 [divEmptyPid]).map (fun r => getJ r "id") =
      [JVal.str "123"] ∧
    derive_pin_id (some "") "http://x/123/a.jpg" = "123" := ⟨rfl, rfl, rfl⟩

/-- The timestamp normalizer always yields exactly the two date keys. -/
theorem parse_timestamp_keys (pn : Int → Option String) (ps : String → Option String)
    (raw : JVal) :
    topKeysOf (parse_pinterest_timestamp pn ps raw) = [ "formatted", "initial" ] := by
  unfold parse_pinterest_timestamp
  cases safe_to_datetime pn ps raw <;> rfl

/-- Every normalized pin has the canonical record shape. -/
theorem normalize_pin_shape (pn : Int → Option String) (ps : String → Option String)
    (p : List (String × JVal)) : record_shape (normalize_pin pn ps p) = true := by
  have hkeys : topKeysOf (normalize_pin pn ps p) =
      [ "id", "title", "pinner", "date", "type", "imageURL" ] := rfl
  have hid : isStrJ (getJ (normalize_pin pn ps p) "id") = true := rfl
  have hpinner : topKeysOf (getJ (normalize_pin pn ps p) "pinner") =
      [ "id", "username", "fullName", "avatarURL", "followers" ] := rfl
  have hdate : getJ (normalize_pin pn ps p) "date" =
      parse_pinterest_timestamp pn ps (pyOr (pyGet p "created_at")
        (pyOr (pyGet p "created_at_timestamp") (pyGet p "createdAt"))) := rfl
  unfold record_shape
  rw [hkeys, hid, hpinner, hdate, parse_timestamp_keys]
  rfl

/-- Every record the fallback div loop emits has the canonical record
shape, with string title, literal pin type and string imageURL. -/
theorem fallback_pin_inv {pn : Int → Option String} {ps : String → Option String}
    {d : Div} {r : JVal} (h : fallback_pin pn ps d = some r) :
    record_shape r = true ∧ isStrJ (getJ r "title") = true ∧
    getJ r "type" = JVal.str "pin" ∧ isStrJ (getJ r "imageURL") = true := by
  obtain ⟨dtid, dpid, imgs⟩ := d
  simp only [fallback_pin] at h
  by_cases hc : hasSub (pyLowerL (dtid.getD "").toList) ( "pin".toList) = true
  · rw [if_pos hc] at h
    cases imgs with
    | nil => simp at h
    | cons img rest =>
      simp only [List.head?_cons, Option.some.injEq] at h
      subst h
      exact ⟨rfl, rfl, rfl, rfl⟩
  · rw [if_neg hc] at h
    simp at h

/-- The limit slice only keeps records the fallback parser produced. -/
theorem pyTake_subset (limit : Int) (l : List JVal) : pyTake limit l ⊆ l := by
  unfold pyTake
  split <;> exact List.take_subset _ _

/-- C1 (amended): every record search emits has exactly the six
top-level fields id, title, pinner, date, type, imageURL, with a string
id, exactly the five creator fields under pinner and exactly formatted
and initial under date; fallback records moreover have a string title,
the literal type pin and a string imageURL, while on the normalization
path title, type and imageURL carry the raw candidate values and need
not be strings. -/
theorem search_records_canonical_shape (pn : Int → Option String)
    (ps : String → Option String) (pj : List Char → Option JVal)
    (resp : Option Response) (limit : Int) :
    (∀ r, r ∈ search pn ps pj resp limit → record_shape r = true) ∧
    (∀ divs r', r' ∈ fallback_parse_from_html pn ps divs →
      isStrJ (getJ r' "title") = true ∧ getJ r' "type" = JVal.str "pin" ∧
      isStrJ (getJ r' "imageURL") = true) := by
  have hfb : ∀ divs r', r' ∈ fallback_parse_from_html pn ps divs →
      record_shape r' = true ∧ isStrJ (getJ r' "title") = true ∧
      getJ r' "type" = JVal.str "pin" ∧ isStrJ (getJ r' "imageURL") = true := by
    intro divs r' h
    obtain ⟨d, _, hd⟩ := List.mem_filterMap.mp h
    exact fallback_pin_inv hd
  constructor
  · intro r hr
    cases resp with
    | none => simp [search] at hr
    | some r0 =>
      simp only [search] at hr
      by_cases hs : r0.status_code = 200
      · rw [if_pos hs] at hr
        split at hr
        · have hr' := pyTake_subset limit _ hr
          exact (hfb r0.divs r hr').1
        · split at hr
          · have hr' := pyTake_subset limit _ hr
            exact (hfb r0.divs r hr').1
          · obtain ⟨p, _, rfl⟩ := mem_normalize_loop hr
            exact normalize_pin_shape pn ps p
      · rw [if_neg hs] at hr
        simp at hr
  · intro divs r' h
    exact (hfb divs r' h).2

/-- C1 witness: the record of a concrete fallback run has the shape and
the fallback typing. -/
theorem search_records_canonical_shape_witness :
    record_shape recW = true ∧ isStrJ (getJ recW "title") = true ∧
    getJ recW "type" = JVal.str "pin" ∧ isStrJ (getJ recW "imageURL") = true := by
  have h := search_records_canonical_shape pn0 ps0 parse_none (some respFallback) 5
  have hmem : recW ∈ search pn0 ps0 parse_none (some respFallback) 5 :=
    List.mem_singleton.mpr rfl
  have hmem2 : recW ∈ fallback_parse_from_html pn0 ps0 [divW] :=
    List.mem_singleton.mpr rfl
  exact ⟨h.1 recW hmem, h.2 [divW] recW hmem2⟩

/-- C1 counterexample: a structured candidate whose grid_title is the
number 7 flows through search into a record whose title is that number,
not a string. -/
theorem normalized_title_not_string :
    search pn0 ps0 parseNumTitle (some respNumTitle) 10 =
      [normalize_pin pn0 ps0 pinNum] ∧
    getJ (normalize_pin pn0 ps0 pinNum) "title" = JVal.num 7 ∧
    isStrJ (getJ (normalize_pin pn0 ps0 pinNum) "title") = false := ⟨rfl, rfl, rfl⟩

end Pinterest
